import Mathlib

/-!
Formal model of the PopulationBasedTraining repository's core: the
hyperparameter value model (`PopulationBasedTraining/hyperparameters.py`) and
the evolution engines (`pbt/evolution.py`: `ExploitAndExplore`,
`DifferentialEvolution`, `SHADE`, `LSHADE`).

Conventions of the shallow embedding:
* Python floats are modelled as rationals (`ℚ`); exact real arithmetic, no
  floating-point rounding.  `NaN` scores are modelled as `Option.none`.
* Random draws are passed in explicitly (an index for every `random.choice` /
  `random.randrange`, the sampled offsets for `randn` / `randc` draws), so all
  functions are deterministic in their arguments.
* Fallible code (Python `raise` / `assert`) is modelled with `Except String`.
* `pbt/member.py`, `pbt/de/mutation.py`, `pbt/de/constraint.py` and
  `pbt/utils/` are not present in the source tree; the definitions below that
  replace them carry a `Modelled from the spec:` doc comment and follow the
  specification's description of the missing code.
-/

/-- Python's builtin `round`: round half to even (banker's rounding), as used
by `round(...)` calls throughout `pbt/evolution.py`. -/
def pythonRound (q : ℚ) : ℤ :=
  if q - ⌊q⌋ < 1/2 then ⌊q⌋
  else if 1/2 < q - ⌊q⌋ then ⌊q⌋ + 1
  else if ⌊q⌋ % 2 = 0 then ⌊q⌋ else ⌊q⌋ + 1

/-- `clip` from `PopulationBasedTraining/hyperparameters.py` lines 19-25
(and, per the spec section 4.2, the identical `pbt/utils/constraint.clip`
used by `DifferentialEvolution.mutate`). -/
def clip (value min_value max_value : ℚ) : ℚ :=
  if value < min_value then min_value
  else if value > max_value then max_value
  else value

/-- `translate` from `PopulationBasedTraining/hyperparameters.py` lines 10-17:
affine transport of `value` from the range `[left_min, left_max]` into
`[right_min, right_max]`.  (Named `translateValue` here because Mathlib already
declares a `translate`.) -/
def translateValue (value left_min left_max right_min right_max : ℚ) : ℚ :=
  right_min + (value - left_min) / (left_max - left_min) * (right_max - right_min)

/-- Modelled from the spec: `pbt/de/constraint.halving` (file absent from the
source tree), spec section 4.2: if the mutant violates a bound, return the
midpoint of the base and that bound, else the mutant. -/
def halving (base mutant lower_bounds upper_bounds : ℚ) : ℚ :=
  if mutant < lower_bounds then (base + lower_bounds) / 2
  else if mutant > upper_bounds then (base + upper_bounds) / 2
  else mutant

/-- Modelled from the spec: `pbt/de/mutation.de_rand_1` (file absent from the
source tree), spec section 4.4. -/
def de_rand_1 (F x_r0 x_r1 x_r2 : ℚ) : ℚ :=
  x_r0 + F * (x_r1 - x_r2)

/-- Modelled from the spec: `pbt/de/mutation.de_current_to_best_1` (file
absent from the source tree), spec section 4.4. -/
def de_current_to_best_1 (F x_base x_best x_r1 x_r2 : ℚ) : ℚ :=
  x_base + F * (x_best - x_base) + F * (x_r1 - x_r2)

/-- `mean_wl` from `pbt/evolution.py` lines 209-218: the weighted Lehmer mean
of `S` with respect to `weights` (the weight of index `k` is
`weights[k] / sum(weights)`). -/
def mean_wl (S weights : List ℚ) : ℚ :=
  let A := ((S.zip weights).map (fun p => p.2 / weights.sum * p.1 ^ 2)).sum
  let B := ((S.zip weights).map (fun p => p.2 / weights.sum * p.1)).sum
  A / B

/-- Python `max` over a nonempty list (`max(self.s_cr)` in
`HistoricalMemory.update`); returns `0` on the empty list, on which Python
would raise instead (the only use site guards for nonemptiness). -/
def listMax : List ℚ → ℚ
  | [] => 0
  | x :: xs => xs.foldl max x

/-- A Python value as far as `Hyperparameter.__init__` inspects one: a number
(`float`/`int` merged into `ℚ`) or a non-numeric object such as a string. -/
inductive PyVal where
  | num : ℚ → PyVal
  | str : String → PyVal
deriving DecidableEq

/-- `isinstance(v, (float, int))` for a `PyVal`. -/
def PyVal.isNumeric : PyVal → Bool
  | num _ => true
  | str _ => false

/-- Ordering used by `sorted(list(args))` in `Hyperparameter.__init__`:
numbers by value, strings lexicographically, mixed comparisons (which raise in
Python) default to `false`. -/
def pyValLe : PyVal → PyVal → Bool
  | .num a, .num b => decide (a ≤ b)
  | .str a, .str b => !decide (b < a)
  | _, _ => false

def pyValInsert (v : PyVal) : List PyVal → List PyVal
  | [] => [v]
  | x :: xs => if pyValLe v x then v :: x :: xs else x :: pyValInsert v xs

/-- `sorted(list(args))` over `PyVal`s (insertion sort; the sort order on the
reachable, all-numeric inputs agrees with Python's). -/
def pyValSort : List PyVal → List PyVal
  | [] => []
  | x :: xs => pyValInsert x (pyValSort xs)

/-- The state of a `Hyperparameter` right after `__init__`
(`PopulationBasedTraining/hyperparameters.py` lines 29-35):
the sorted search space and the categorical flag; `_value` starts as `None`
and is omitted. -/
structure Hyperparameter where
  search_space : List PyVal
  is_categorical : Bool
deriving DecidableEq

/-- `Hyperparameter.__init__` from `PopulationBasedTraining/hyperparameters.py`
lines 29-35.  The two `assert` statements become `Except.error` with the
assertion messages; on success the search space is sorted and stored. -/
def Hyperparameter.init (args : List PyVal) (is_categorical : Bool) :
    Except String Hyperparameter :=
  if ¬ (args ≠ [] ∧ 1 < args.length) then
    .error ("Hyperparameter initialization needs at least two arguments.")
  else if ¬ (¬ is_categorical ∧ (args.getD 0 (PyVal.num 0)).isNumeric) then
    .error ("Non-categorical hyperparameters must be of type float or int.")
  else
    .ok { search_space := pyValSort args, is_categorical := is_categorical }

/-- The continuous (`float`-elements) variant of `Hyperparameter`, with the
search space and the stored normalized `_value` as rationals.  `uvalue` is the
`_value` attribute (`none` models Python `None`, the unsampled state). -/
structure HyperparameterR where
  search_space : List ℚ
  uvalue : Option ℚ
deriving DecidableEq

/-- `Hyperparameter.get_lower_bound` (line 70): `self._search_space[0]`. -/
def HyperparameterR.get_lower_bound (h : HyperparameterR) : ℚ :=
  h.search_space.getD 0 0

/-- `Hyperparameter.get_upper_bound` (line 74): `self._search_space[-1]`. -/
def HyperparameterR.get_upper_bound (h : HyperparameterR) : ℚ :=
  h.search_space.getLast?.getD 0

/-- `Hyperparameter._get_normalized_value` (lines 37-46), non-categorical
numeric branch: `translate(value, lower, upper, 0.0, 1.0)`. -/
def HyperparameterR.get_normalized_value (h : HyperparameterR) (value : ℚ) : ℚ :=
  translateValue value h.get_lower_bound h.get_upper_bound 0 1

/-- `Hyperparameter.set_value` (lines 64-66):
`self._value = clip(self._get_normalized_value(value), 0.0, 1.0)`. -/
def HyperparameterR.set_value (h : HyperparameterR) (value : ℚ) : HyperparameterR :=
  { h with uvalue := some (clip (h.get_normalized_value value) 0 1) }

/-- `Hyperparameter.get_value` (lines 52-62), continuous-`float` branch:
`float(translate(self._value, 0.0, 1.0, lower, upper))`. -/
def HyperparameterR.get_value (h : HyperparameterR) : ℚ :=
  translateValue (h.uvalue.getD 0) 0 1 h.get_lower_bound h.get_upper_bound

/-- Modelled from the spec: `pbt/member.py` is absent from the source tree.
A member carries (spec section 3) an integer id, the ordered normalized
hyperparameter coordinates (each `u ∈ [0, 1]`), an opaque model/optimizer
state blob (here an abstract token), the evaluation score (`none` models `NaN`
or a missing score), and the `minimize` flag. -/
structure MemberState where
  id : Nat
  params : List ℚ
  state : Nat
  score : Option ℚ
  minimize : Bool
deriving DecidableEq

/-- Modelled from the spec: `MemberState.__le__` (member total ordering,
spec section 3): induced by score and `minimize` — when minimizing, the
smaller score is the greater member; `NaN` (`none`) scores sort as the worst.
`a.le b` holds when `b` is at least as good as `a`. -/
def MemberState.le (a b : MemberState) : Bool :=
  match a.score, b.score with
  | none, _ => true
  | some _, none => false
  | some x, some y => if a.minimize then decide (y ≤ x) else decide (x ≤ y)

/-- One insertion step of the ascending sort below. -/
def insertAsc (m : MemberState) : List MemberState → List MemberState
  | [] => [m]
  | x :: xs => if m.le x then m :: x :: xs else x :: insertAsc m xs

/-- Modelled from the spec: Python `sorted(generation)` — members in ascending
member order, worst first (insertion sort; tie order is not observable by any
property proved below). -/
def sortAsc : List MemberState → List MemberState
  | [] => []
  | x :: xs => insertAsc x (sortAsc xs)

/-- One insertion step of the descending sort below. -/
def insertDesc (m : MemberState) : List MemberState → List MemberState
  | [] => [m]
  | x :: xs => if x.le m then m :: x :: xs else x :: insertDesc m xs

/-- Modelled from the spec: Python `sorted(generation, reverse=True)` —
members in descending member order, best first. -/
def sortDesc : List MemberState → List MemberState
  | [] => []
  | x :: xs => insertDesc x (sortDesc xs)

/-- Modelled from the spec: `Generation.remove` (spec section 3: a generation
is indexed by member id, ids unique within a generation; supports removal).
Removes the first member with the given id. -/
def eraseById (g : List MemberState) (i : Nat) : List MemberState :=
  g.eraseP (fun m => m.id == i)

/-- `HistoricalMemory` state from `pbt/evolution.py` lines 220-228: circular
arrays `m_cr` (whose cells can become Python `None`) and `m_f`, the
per-generation sample buffers `s_cr`, `s_f`, `weights`, and the write cursor
`k`. -/
structure HistoricalMemory where
  size : Nat
  m_cr : List (Option ℚ)
  m_f : List ℚ
  s_cr : List ℚ
  s_f : List ℚ
  weights : List ℚ
  k : Nat
deriving DecidableEq

/-- The delta-score actually stored by `HistoricalMemory.record` (lines
233-235): `0.0` or `NaN` (`none`) is replaced by `1e-9` to avoid a later
division by zero. -/
def pyDeltaScore : Option ℚ → ℚ
  | none => 1/1000000000
  | some q => if q = 0 then 1/1000000000 else q

/-- `HistoricalMemory.record` from `pbt/evolution.py` lines 230-238.  The two
`assert` statements become errors; otherwise the control parameters and the
(substituted) delta score are appended to the sample buffers. -/
def HistoricalMemory.record (mem : HistoricalMemory) (cr_i f_i : ℚ)
    (delta_score : Option ℚ) : Except String HistoricalMemory :=
  if 0 ≤ cr_i ∧ cr_i ≤ 1 then
    if 0 ≤ f_i then
      .ok { mem with
        s_cr := mem.s_cr ++ [cr_i]
        s_f := mem.s_f ++ [f_i]
        weights := mem.weights ++ [pyDeltaScore delta_score] }
    else .error ("f_i is not valid.")
  else .error ("cr_i is not valid.")

/-- `HistoricalMemory.reset` from `pbt/evolution.py` lines 240-243. -/
def HistoricalMemory.reset (mem : HistoricalMemory) : HistoricalMemory :=
  { mem with s_cr := [], s_f := [], weights := [] }

/-- `HistoricalMemory.update` from `pbt/evolution.py` lines 245-253: a no-op
when any sample buffer is empty; otherwise writes the weighted Lehmer means
into `m_cr[k]` / `m_f[k]` (with the `None` degeneration for `m_cr`) and
advances `k` circularly. -/
def HistoricalMemory.update (mem : HistoricalMemory) : HistoricalMemory :=
  if mem.s_cr = [] ∨ mem.s_f = [] ∨ mem.weights = [] then mem
  else
    { mem with
      m_cr :=
        if mem.m_cr.getD mem.k none = none ∨ listMax mem.s_cr = 0 then
          mem.m_cr.set mem.k none
        else
          mem.m_cr.set mem.k (some (mean_wl mem.s_cr mem.weights))
      m_f := mem.m_f.set mem.k (mean_wl mem.s_f mem.weights)
      k := if mem.size - 1 ≤ mem.k then 0 else mem.k + 1 }

/-- `ExternalArchive` from `pbt/evolution.py` lines 255-264: a list with a
capacity.  The capacity is declared as a rational because
`LSHADE.adjust_generation_size` (line 459) assigns it the Python float
`new_size * self.r_arc`; `append`'s fullness test `len(self) == self.size`
is Python's numeric comparison of an `int` against that value. -/
structure ExternalArchive where
  size : ℚ
  data : List MemberState
deriving DecidableEq

/-- `ExternalArchive.append` from `pbt/evolution.py` lines 260-264: when the
archive is exactly full, a uniformly random element (index `evict`, the
`random.randrange(self.size)` draw) is deleted before the plain list append. -/
def ExternalArchive.append (a : ExternalArchive) (evict : Nat)
    (parent : MemberState) : ExternalArchive :=
  if (a.data.length : ℚ) = a.size then
    { a with data := (a.data.eraseIdx evict) ++ [parent] }
  else
    { a with data := a.data ++ [parent] }

/-- `DifferentialEvolution` engine parameters (`pbt/evolution.py` line 165). -/
structure DifferentialEvolution where
  F : ℚ
  Cr : ℚ
deriving DecidableEq

/-- The random draws consumed for one member inside
`DifferentialEvolution.mutate`: the three `random_from_list` picks (indices
into the generation minus the already-picked members), the `j_rand` draw, and
the per-coordinate `random.uniform(0.0, 1.0)` crossover draws. -/
structure DEChoice where
  r0 : Nat
  r1 : Nat
  r2 : Nat
  jrand : Nat
  uniforms : List ℚ
deriving DecidableEq

/-- The crossover loop of `DifferentialEvolution.mutate` (lines 191-197),
coordinate `j` counted from `j0`: mutate-and-clip when the uniform draw is at
most `Cr` or `j` equals `j_rand`, else keep the parent coordinate. -/
def deCrossover (e : DifferentialEvolution) (c : DEChoice)
    (x_r0 x_r1 x_r2 : List ℚ) (j0 : Nat) : List ℚ → List ℚ
  | [] => []
  | u :: us =>
    (if c.uniforms.getD j0 1 ≤ e.Cr ∨ j0 = c.jrand then
      clip (de_rand_1 e.F (x_r0.getD j0 0) (x_r1.getD j0 0) (x_r2.getD j0 0)) 0 1
    else u) :: deCrossover e c x_r0 x_r1 x_r2 (j0 + 1) us

/-- Modelled from the spec: `pbt/utils/iterable.random_from_list(pool, k=3,
exclude=(member,))` (file absent) — three distinct uniformly random members of
the generation other than `member` (spec section 4.5.3).  The model removes
`member` by id and then picks without replacement at the oracle indices. -/
def samplesR0R1R2 (gen : List MemberState) (member : MemberState) (c : DEChoice) :
    MemberState × MemberState × MemberState :=
  let pool0 := gen.filter (fun m => !(m.id == member.id))
  let x_r0 := pool0.getD (c.r0 % pool0.length) member
  let pool1 := pool0.eraseIdx (c.r0 % pool0.length)
  let x_r1 := pool1.getD (c.r1 % pool1.length) member
  let pool2 := pool1.eraseIdx (c.r1 % pool1.length)
  let x_r2 := pool2.getD (c.r2 % pool2.length) member
  (x_r0, x_r1, x_r2)

/-- `DifferentialEvolution.mutate` from `pbt/evolution.py` lines 179-198: the
generation-size guard, then for each member a `(parent copy, trial)` pair
built by `DE/rand/1/bin` crossover.  `choices` supplies the random draws, one
`DEChoice` per member position. -/
def DifferentialEvolution.mutate (e : DifferentialEvolution)
    (gen : List MemberState) (choices : Nat → DEChoice) :
    Except String (List (MemberState × MemberState)) :=
  if gen.length < 3 then
    .error ("generation size must be at least 3 or higher.")
  else
    .ok ((List.range gen.length).map (fun i =>
      let member := gen.getD i ⟨0, [], 0, none, false⟩
      let c := choices i
      let s := samplesR0R1R2 gen member c
      (member,
       { member with
         params := deCrossover e { c with jrand := c.jrand % member.params.length }
           s.1.params s.2.1.params s.2.2.params 0 member.params })))

/-- `DifferentialEvolution.select` from `pbt/evolution.py` lines 200-207:
the trial survives exactly when `parent <= trial`. -/
def DifferentialEvolution.select (parent trial : MemberState) : MemberState :=
  if parent.le trial then trial else parent

/-- `SHADE` engine state (`pbt/evolution.py` lines 285-308): bounds for `F`,
the configuration parameters, the external archive, the historical memory, and
the per-generation `CR` / `F` control-parameter maps (association lists keyed
by member id; a dict write is a cons, a dict read is `List.lookup`). -/
structure SHADE where
  F_MIN : ℚ
  F_MAX : ℚ
  N_INIT : Nat
  r_arc : ℚ
  p : ℚ
  archive : ExternalArchive
  memory : HistoricalMemory
  CR : List (Nat × ℚ)
  F : List (Nat × ℚ)
  state_sharing : Bool
deriving DecidableEq

/-- `abs(trial.score() - parent.score())` from `SHADE.select` line 367;
`none` models the `NaN` produced when either score is missing. -/
def deltaScore (trial parent : MemberState) : Option ℚ :=
  match trial.score, parent.score with
  | some t, some p => some |t - p|
  | _, _ => none

/-- `SHADE.select` from `pbt/evolution.py` lines 362-374.  If
`parent <= trial`: append a copy of the parent to the archive (at eviction
draw `evict`), record `(CR[id], F[id], |Δscore|)` into the historical memory,
and return the trial; otherwise return the parent with the state untouched.
A missing `CR`/`F` entry is Python's `KeyError`. -/
def SHADE.select (st : SHADE) (parent trial : MemberState) (evict : Nat) :
    Except String (SHADE × MemberState) :=
  if parent.le trial then
    match st.CR.lookup parent.id, st.F.lookup parent.id with
    | some cr_i, some f_i =>
      match st.memory.record cr_i f_i (deltaScore trial parent) with
      | .ok mem1 =>
        .ok ({ st with archive := st.archive.append evict parent, memory := mem1 }, trial)
      | .error e => .error e
    | _, _ => .error ("KeyError")
  else
    .ok (st, parent)

/-- The random draws consumed by one `SHADE.mutate` call: the
`random.randrange(0, memory.size)` index, the centered offset of the `randn`
draw for `CR_i`, the centered offsets of the successive `randc` draws for
`F_i`, the `x_r1` / `x_r2` / `pbest` choice indices, `j_rand`, and the
per-coordinate crossover uniforms. -/
structure SHADEChoice where
  memIdx : Nat
  gaussOffset : ℚ
  cauchyOffsets : List ℚ
  r1 : Nat
  r2 : Nat
  pbest : Nat
  jrand : Nat
  uniforms : List ℚ
deriving DecidableEq

/-- `SHADE.get_control_parameters` from `pbt/evolution.py` lines 385-413:
pick a random memory cell; `CR_i = 0` when `M_CR[r1]` is `None`, else the
truncated Gaussian draw; `F_i` is the first Cauchy draw not below `F_MIN`,
saturated at `F_MAX` (the code loops forever when no draw qualifies — the
model reports that as an error). -/
def SHADE.get_control_parameters (st : SHADE) (o : SHADEChoice) :
    Except String (ℚ × ℚ) :=
  let r1 := o.memIdx % st.memory.size
  let MF_i := st.memory.m_f.getD r1 0
  let MCR_i := st.memory.m_cr.getD r1 none
  let CR_i := match MCR_i with
    | none => 0
    | some mcr => clip (mcr + o.gaussOffset) 0 1
  match (o.cauchyOffsets.map (fun c => MF_i + c)).find? (fun f => decide (st.F_MIN ≤ f)) with
  | none => .error ("no admissible F draw")
  | some f => .ok (CR_i, if f > st.F_MAX then st.F_MAX else f)

/-- `SHADE.pbest_member` from `pbt/evolution.py` lines 415-421: a uniformly
random member (oracle index `i`) of the top `max(1, round(|G| * p))` of the
descending-sorted generation. -/
def SHADE.pbest_member (st : SHADE) (gen : List MemberState) (i : Nat)
    (deflt : MemberState) : MemberState :=
  let n_elitists := (max (pythonRound ((gen.length : ℚ) * st.p)) 1).toNat
  let elitists := (sortDesc gen).take n_elitists
  elitists.getD (i % elitists.length) deflt

/-- The crossover loop of `SHADE.mutate` (lines 351-359), with the
`halving` bound constraint instead of `clip`. -/
def shadeCrossover (cr_i f_i : ℚ) (o : SHADEChoice)
    (x_best x_r1 x_r2 : List ℚ) (j0 : Nat) : List ℚ → List ℚ
  | [] => []
  | u :: us =>
    (if o.uniforms.getD j0 1 ≤ cr_i ∨ j0 = o.jrand then
      halving u (de_current_to_best_1 f_i u (x_best.getD j0 0) (x_r1.getD j0 0)
        (x_r2.getD j0 0)) 0 1
    else u) :: shadeCrossover cr_i f_i o x_best x_r1 x_r2 (j0 + 1) us

/-- `SHADE.__sample_r1_and_r2` from `pbt/evolution.py` lines 324-327:
`x_r1` uniformly from the generation minus the member, `x_r2` uniformly from
archive-plus-generation minus the member and `x_r1` (exclusion by id, as for
`random_from_list`). -/
def SHADE.sample_r1_and_r2 (st : SHADE) (member : MemberState)
    (gen : List MemberState) (o : SHADEChoice) : MemberState × MemberState :=
  let pool1 := gen.filter (fun m => !(m.id == member.id))
  let x_r1 := pool1.getD (o.r1 % pool1.length) member
  let pool2 := (st.archive.data ++ gen).filter
    (fun m => !(m.id == member.id) && !(m.id == x_r1.id))
  let x_r2 := pool2.getD (o.r2 % pool2.length) member
  (x_r1, x_r2)

/-- `SHADE.mutate` from `pbt/evolution.py` lines 329-360: the generation-size
guard, control-parameter assignment into the `CR` / `F` maps, the
`x_r1` / `x_r2` / `pbest` draws, optional state sharing, and the
`DE/current-to-pbest/1/bin` crossover with `halving`.  Returns the updated
engine state and the trial. -/
def SHADE.mutate (st : SHADE) (member : MemberState) (gen : List MemberState)
    (o : SHADEChoice) : Except String (SHADE × MemberState) :=
  if gen.length < 4 then
    .error ("generation size must be at least 4 or higher.")
  else
    match st.get_control_parameters o with
    | .error e => .error e
    | .ok (cr_i, f_i) =>
      let st1 := { st with CR := (member.id, cr_i) :: st.CR, F := (member.id, f_i) :: st.F }
      let r12 := st.sample_r1_and_r2 member gen o
      let x_pbest := st.pbest_member gen o.pbest member
      let trial :=
        { member with
          state := if st.state_sharing then x_pbest.state else member.state
          params := shadeCrossover cr_i f_i { o with jrand := o.jrand % member.params.length }
            x_pbest.params r12.1.params r12.2.params 0 member.params }
      .ok (st1, trial)

/-- `LSHADE` state (`pbt/evolution.py` lines 439-443): the `SHADE` state plus
`N_MIN = 4`, the evaluation budget `MAX_NFE`, and the running evaluation
counter `_nfe`. -/
structure LSHADE extends SHADE where
  N_MIN : Nat
  MAX_NFE : Nat
  nfe : Nat
deriving DecidableEq

/-- The `new_size` computed at `pbt/evolution.py` line 454:
`round(((N_MIN - N_INIT) / MAX_NFE) * nfe + N_INIT)`. -/
def LSHADE.newSize (st : LSHADE) : ℤ :=
  pythonRound (((st.N_MIN : ℚ) - st.N_INIT) / st.MAX_NFE * st.nfe + st.N_INIT)

/-- `LSHADE.adjust_generation_size` from `pbt/evolution.py` lines 453-463:
if the target size is not below the generation size, nothing happens;
otherwise the archive capacity becomes the float `new_size * r_arc`
(no rounding in the source) and the `|G| - new_size` first members of the
ascending-sorted generation are removed one by one. -/
def LSHADE.adjust_generation_size (st : LSHADE) (gen : List MemberState) :
    LSHADE × List MemberState :=
  if (gen.length : ℤ) ≤ st.newSize then (st, gen)
  else
    let st1 := { st with
      toSHADE := { st.toSHADE with
        archive := { st.archive with size := (st.newSize : ℚ) * st.r_arc } } }
    let size_delta := ((gen.length : ℤ) - st.newSize).toNat
    let worsts := (sortAsc gen).take size_delta
    (st1, worsts.foldl (fun g w => eraseById g w.id) gen)

/-- `ExploitAndExplore` engine parameters (`pbt/evolution.py` lines 106-111). -/
structure ExploitAndExplore where
  exploit_factor : ℚ
  explore_factors : List ℚ
deriving DecidableEq

/-- `n_elitists` from `pbt/evolution.py` line 136:
`max(1, round(len(generation) * exploit_factor))`. -/
def ExploitAndExplore.n_elitists (e : ExploitAndExplore)
    (gen : List MemberState) : Nat :=
  max 1 (pythonRound ((gen.length : ℚ) * e.exploit_factor)).toNat

/-- The elitists of `pbt/evolution.py` lines 137-138: the top `n_elitists`
members of the descending-sorted generation. -/
def ExploitAndExplore.elitists (e : ExploitAndExplore)
    (gen : List MemberState) : List MemberState :=
  (sortDesc gen).take (e.n_elitists gen)

/-- The `__explore` loop of `pbt/evolution.py` lines 153-159, coordinate `j`
counted from `j0`: each coordinate is replaced by
`Hyperparameter.__mul__(factor)`, which is `clip(factor * u, 0, 1)`
(`PopulationBasedTraining/hyperparameters.py` lines 101-105); `factors`
supplies the `random.choice(explore_factors)` draws. -/
def exploreParams (factors : List ℚ) (j0 : Nat) : List ℚ → List ℚ
  | [] => []
  | u :: us => clip (factors.getD j0 1 * u) 0 1 :: exploreParams factors (j0 + 1) us

/-- `ExploitAndExplore.__exploit_and_explore` from `pbt/evolution.py` lines
131-151 (membership of the member among the elitists is tested by id): an
elitist advances as an unchanged copy; any other member receives the
parameters and opaque state of the uniformly chosen elitist (oracle index
`elitIdx`) and is then explored coordinate-wise. -/
def ExploitAndExplore.exploit_and_explore (e : ExploitAndExplore)
    (member : MemberState) (gen : List MemberState) (elitIdx : Nat)
    (factors : List ℚ) : MemberState :=
  let elitists := e.elitists gen
  if elitists.any (fun m => m.id == member.id) then member
  else
    let elitist := elitists.getD (elitIdx % elitists.length) member
    { member with
      params := exploreParams factors 0 elitist.params
      state := elitist.state }

/-- Builder for concrete test members: id `i`, a single coordinate `0`, opaque
state token `0`, score `s`, maximizing. -/
def mkMember (i : Nat) (s : ℚ) : MemberState := ⟨i, [0], 0, some s, false⟩

def genTwo : List MemberState := [mkMember 1 1, mkMember 2 2]

def genThree : List MemberState := [mkMember 1 1, mkMember 2 2, mkMember 3 3]

def genFour : List MemberState :=
  [mkMember 1 1, mkMember 2 2, mkMember 3 3, mkMember 4 4]

def genFive : List MemberState :=
  [mkMember 1 10, mkMember 2 20, mkMember 3 30, mkMember 4 40, mkMember 5 50]

def genSix : List MemberState :=
  [mkMember 1 1, mkMember 2 2, mkMember 3 3, mkMember 4 4, mkMember 5 5,
   mkMember 6 6]

/-- A fresh historical memory of size 5 (default cells `1/2`), no samples. -/
def memEmpty : HistoricalMemory :=
  ⟨5, List.replicate 5 (some (1/2)), List.replicate 5 (1/2), [], [], [], 0⟩

/-- A historical memory with one recorded sample. -/
def memOne : HistoricalMemory :=
  ⟨5, List.replicate 5 (some (1/2)), List.replicate 5 (1/2), [1/2], [1/2], [1], 0⟩

def archEight : ExternalArchive := ⟨8, []⟩

/-- A concrete SHADE state with control parameters recorded for member id 1. -/
def cSHADE : SHADE :=
  ⟨0, 1, 4, 2, 1/10, archEight, memEmpty, [(1, 1/2)], [(1, 1/2)], false⟩

def cChoice : SHADEChoice := ⟨0, 0, [1], 0, 0, 0, 0, []⟩

def cSHADE5 : SHADE := ⟨0, 1, 5, 2, 1/10, archEight, memEmpty, [], [], false⟩

/-- A concrete L-SHADE state: `N_INIT = 5`, `N_MIN = 4`, `MAX_NFE = 10`,
`nfe = 20`, so the target size is `round(3) = 3`. -/
def cLSHADE : LSHADE := ⟨cSHADE5, 4, 10, 20⟩

def cSHADE15 : SHADE :=
  ⟨0, 1, 20, 3/2, 1/10, archEight, memEmpty, [], [], false⟩

/-- A concrete L-SHADE state with fractional `r_arc = 3/2`: `N_INIT = 20`,
`MAX_NFE = 16`, `nfe = 15`, so the target size is `round(5) = 5` and the
adjusted archive capacity is the float `5 * 3/2 = 15/2`. -/
def cLSHADE15 : LSHADE := ⟨cSHADE15, 4, 16, 15⟩

def mElite : MemberState := ⟨1, [1], 0, some 1, false⟩

def mWeak : MemberState := ⟨2, [1], 0, some 0, false⟩

def eEE : ExploitAndExplore := ⟨1/2, [4/5, 6/5]⟩

def mBetter : MemberState := ⟨1, [0], 0, some 2, false⟩

def mWorse : MemberState := ⟨1, [0], 0, some 1, false⟩

lemma pythonRound_intCast (z : ℤ) : pythonRound (z : ℚ) = z := by
  simp [pythonRound]

lemma memberLe_refl (a : MemberState) : a.le a = true := by
  cases h : a.score <;> simp [MemberState.le, h]

lemma memberLe_total (a b : MemberState) (hab : a.minimize = b.minimize) :
    a.le b = true ∨ b.le a = true := by
  cases ha : a.score <;> cases hb : b.score <;>
    simp [MemberState.le, ha, hb, hab] <;> cases hm : b.minimize <;>
    simp [hm] <;> exact le_total _ _

lemma memberLe_total_not (a b : MemberState) (hab : a.minimize = b.minimize)
    (h : a.le b = false) : b.le a = true := by
  rcases memberLe_total a b hab with h1 | h1
  · rw [h1] at h; cases h
  · exact h1

lemma memberLe_trans (a b c : MemberState) (hab : a.minimize = b.minimize)
    (hbc : b.minimize = c.minimize) (h1 : a.le b = true) (h2 : b.le c = true) :
    a.le c = true := by
  cases ha : a.score <;> cases hb : b.score <;> cases hc : c.score <;>
    simp_all [MemberState.le, hab, hbc] <;> cases hm : c.minimize <;>
    simp_all <;> first
  | exact le_trans h1 h2
  | exact le_trans h2 h1

lemma insertAsc_perm (m : MemberState) (l : List MemberState) :
    (insertAsc m l).Perm (m :: l) := by
  induction l with
  | nil => simp [insertAsc]
  | cons x xs ih =>
    by_cases h : m.le x = true
    · simp [insertAsc, h]
    · simp only [insertAsc, h, if_false, Bool.false_eq_true]
      exact ((ih.cons x).trans (List.Perm.swap m x xs))

lemma sortAsc_perm (l : List MemberState) : (sortAsc l).Perm l := by
  induction l with
  | nil => simp [sortAsc]
  | cons x xs ih => exact (insertAsc_perm x (sortAsc xs)).trans (ih.cons x)

lemma insertAsc_pairwise (bb : Bool) (m : MemberState) (l : List MemberState)
    (hm : m.minimize = bb) (hl : ∀ x ∈ l, x.minimize = bb)
    (hp : l.Pairwise (fun a b => a.le b = true)) :
    (insertAsc m l).Pairwise (fun a b => a.le b = true) := by
  induction l with
  | nil => simp [insertAsc]
  | cons x xs ih =>
    rcases List.pairwise_cons.mp hp with ⟨hx_all, hxs⟩
    by_cases h : m.le x = true
    · simp only [insertAsc, h, if_true]
      refine List.Pairwise.cons ?_ hp
      intro y hy
      rcases List.mem_cons.mp hy with rfl | hy2
      · exact h
      · exact memberLe_trans m x y
          (hm.trans (hl x (List.mem_cons_self x xs)).symm)
          ((hl x (List.mem_cons_self x xs)).trans
            (hl y (List.mem_cons_of_mem x hy2)).symm)
          h (hx_all y hy2)
    · simp only [insertAsc, h, if_false, Bool.false_eq_true]
      refine List.Pairwise.cons ?_
        (ih (fun y hy => hl y (List.mem_cons_of_mem x hy)) hxs)
      intro y hy
      rcases List.mem_cons.mp ((insertAsc_perm m xs).mem_iff.mp hy) with rfl | hy2
      · exact memberLe_total_not y x
          (hm.trans (hl x (List.mem_cons_self x xs)).symm)
          (by simpa using h)
      · exact hx_all y hy2

lemma sortAsc_pairwise (bb : Bool) (l : List MemberState)
    (hl : ∀ x ∈ l, x.minimize = bb) :
    (sortAsc l).Pairwise (fun a b => a.le b = true) := by
  induction l with
  | nil => simp [sortAsc]
  | cons x xs ih =>
    exact insertAsc_pairwise bb x (sortAsc xs)
      (hl x (List.mem_cons_self x xs))
      (fun y hy => hl y (List.mem_cons_of_mem x ((sortAsc_perm xs).mem_iff.mp hy)))
      (ih (fun y hy => hl y (List.mem_cons_of_mem x hy)))

lemma insertDesc_perm (m : MemberState) (l : List MemberState) :
    (insertDesc m l).Perm (m :: l) := by
  induction l with
  | nil => simp [insertDesc]
  | cons x xs ih =>
    by_cases h : x.le m = true
    · simp [insertDesc, h]
    · simp only [insertDesc, h, if_false, Bool.false_eq_true]
      exact ((ih.cons x).trans (List.Perm.swap m x xs))

lemma sortDesc_perm (l : List MemberState) : (sortDesc l).Perm l := by
  induction l with
  | nil => simp [sortDesc]
  | cons x xs ih => exact (insertDesc_perm x (sortDesc xs)).trans (ih.cons x)

lemma eraseById_eq_filter (g : List MemberState) (i : Nat)
    (h : (g.map MemberState.id).Nodup) :
    eraseById g i = g.filter (fun m => !(m.id == i)) := by
  induction g with
  | nil => rfl
  | cons x xs ih =>
    have h2 : (∀ y ∈ xs, ¬ y.id = x.id) ∧ (List.map MemberState.id xs).Nodup := by
      simpa using h
    obtain ⟨hx, hxs⟩ := h2
    by_cases hxi : (x.id == i) = true
    · have hxid : x.id = i := by simpa using hxi
      simp only [eraseById, List.eraseP_cons, hxi, if_true, List.filter_cons,
        Bool.not_eq_true']
      rw [List.filter_eq_self.mpr]
      · simp [hxi]
      · intro m hm
        have : m.id ≠ i := fun hmi => hx m hm (hmi.trans hxid.symm)
        simpa using this
    · simp only [eraseById, List.eraseP_cons, hxi, Bool.false_eq_true, if_false,
        List.filter_cons]
      have := ih hxs
      simp only [eraseById] at this
      simp [hxi, this]

lemma foldl_eraseById (ws : List MemberState) (g : List MemberState)
    (h : (g.map MemberState.id).Nodup) :
    ws.foldl (fun acc w => eraseById acc w.id) g
      = g.filter (fun m => !((ws.map MemberState.id).contains m.id)) := by
  induction ws generalizing g with
  | nil => simp
  | cons w ws ih =>
    have hsub : (eraseById g w.id).Sublist g := List.eraseP_sublist g
    have hnd : ((eraseById g w.id).map MemberState.id).Nodup :=
      (hsub.map MemberState.id).nodup h
    rw [List.foldl_cons, ih (eraseById g w.id) hnd, eraseById_eq_filter g w.id h,
      List.filter_filter]
    refine List.filter_congr ?_
    intro m _
    by_cases hmw : m.id = w.id <;>
      simp [List.contains_cons, Bool.not_or, Bool.and_comm, hmw]

/-- Claim C4: the spec asserts that constructing a `Hyperparameter` with
`is_categorical=True` from at least two items succeeds, the numeric-element
requirement applying only to non-categorical variants.  The code disagrees:
the assert at `PopulationBasedTraining/hyperparameters.py` line 32 is
`not is_categorical and isinstance(args[0], (float, int))`, which is false for
every `is_categorical=True` call, so categorical construction always raises —
contradicting the constructor's own docstring (line 30), which instructs
passing `is_categorical=True` for categorical elements.  This theorem
evaluates the constructor model at the failing inputs; the arity error and the
non-categorical success path behave as specified. -/
theorem c4_categorical_construction_evaluation :
    Hyperparameter.init [PyVal.num 1, PyVal.num 2] true
      = .error ("Non-categorical hyperparameters must be of type float or int.") ∧
    Hyperparameter.init [PyVal.str ("a"), PyVal.str ("b")] true
      = .error ("Non-categorical hyperparameters must be of type float or int.") ∧
    Hyperparameter.init [PyVal.num 1] false
      = .error ("Hyperparameter initialization needs at least two arguments.") ∧
    Hyperparameter.init [PyVal.num 1, PyVal.num 2] false
      = .ok ⟨[PyVal.num 1, PyVal.num 2], false⟩ := by
  refine ⟨rfl, rfl, rfl, rfl⟩

/-- Claim C8: `DifferentialEvolution.select` returns the better member under
the member ordering — the survivor is weakly better than both the parent and
the trial — and ties go to the trial: whenever `parent <= trial` the trial is
returned. -/
theorem c8_de_select_better (parent trial : MemberState)
    (hmin : parent.minimize = trial.minimize) :
    parent.le (DifferentialEvolution.select parent trial) = true ∧
    trial.le (DifferentialEvolution.select parent trial) = true ∧
    (parent.le trial = true → DifferentialEvolution.select parent trial = trial) := by
  unfold DifferentialEvolution.select
  by_cases h : parent.le trial = true
  · simp [h, memberLe_refl]
  · have h2 : parent.le trial = false := by simpa using h
    have h3 := memberLe_total_not parent trial hmin h2
    simp [h2, h3, memberLe_refl]

theorem c8_witness :
    mWorse.le (DifferentialEvolution.select mWorse mBetter) = true ∧
    mBetter.le (DifferentialEvolution.select mWorse mBetter) = true ∧
    (mWorse.le mBetter = true → DifferentialEvolution.select mWorse mBetter = mBetter) :=
  c8_de_select_better mWorse mBetter rfl

/-- Claim C10: on the losing branch — the parent strictly better than the
trial under the member ordering — `SHADE.select` returns the parent and the
whole engine state (external archive, sample buffers, memory arrays, cursor,
per-generation `CR` / `F` maps) is returned unchanged. -/
theorem c10_shade_select_frame (st : SHADE) (parent trial : MemberState)
    (evict : Nat) (h : parent.le trial = false) :
    SHADE.select st parent trial evict = .ok (st, parent) := by
  unfold SHADE.select
  simp [h]

theorem c10_witness :
    SHADE.select cSHADE mBetter mWorse 0 = .ok (cSHADE, mBetter) :=
  c10_shade_select_frame cSHADE mBetter mWorse 0 (by decide)

/-- Claim C2: on the winning branch — `parent <= trial` — `SHADE.select`
appends a copy of the parent to the external archive, records the member's
control parameters `CR_i`, `F_i` together with `|trial.score - parent.score|`
into the historical-memory sample buffers (`record` substitutes `1e-9` for a
zero or `NaN` delta), and returns the trial. -/
theorem c2_shade_select_improving (st : SHADE) (parent trial : MemberState)
    (evict : Nat) (cr_i f_i : ℚ)
    (hle : parent.le trial = true)
    (hcr : st.CR.lookup parent.id = some cr_i)
    (hf : st.F.lookup parent.id = some f_i)
    (h0 : 0 ≤ cr_i) (h1 : cr_i ≤ 1) (h2 : 0 ≤ f_i) :
    SHADE.select st parent trial evict =
      .ok ({ st with
        archive := st.archive.append evict parent
        memory := { st.memory with
          s_cr := st.memory.s_cr ++ [cr_i]
          s_f := st.memory.s_f ++ [f_i]
          weights := st.memory.weights ++ [pyDeltaScore (deltaScore trial parent)] } },
        trial) := by
  have hcc : 0 ≤ cr_i ∧ cr_i ≤ 1 := ⟨h0, h1⟩
  have hrec : st.memory.record cr_i f_i (deltaScore trial parent)
      = .ok { st.memory with
          s_cr := st.memory.s_cr ++ [cr_i]
          s_f := st.memory.s_f ++ [f_i]
          weights := st.memory.weights ++ [pyDeltaScore (deltaScore trial parent)] } := by
    unfold HistoricalMemory.record
    rw [if_pos hcc, if_pos h2]
  unfold SHADE.select
  simp only [hle, hcr, hf, hrec, if_true]

theorem c2_witness :
    SHADE.select cSHADE mWorse mBetter 0 =
      .ok ({ cSHADE with
        archive := cSHADE.archive.append 0 mWorse
        memory := { cSHADE.memory with
          s_cr := cSHADE.memory.s_cr ++ [1/2]
          s_f := cSHADE.memory.s_f ++ [1/2]
          weights := cSHADE.memory.weights ++ [pyDeltaScore (deltaScore mBetter mWorse)] } },
        mBetter) :=
  c2_shade_select_improving cSHADE mWorse mBetter 0 (1/2) (1/2) (by decide) rfl rfl
    (by norm_num) (by norm_num) (by norm_num)

/-- Claim C6: `HistoricalMemory.update` with empty sample buffers changes
nothing (cells and cursor untouched); with recorded samples it writes the
weighted Lehmer mean of `S_F` into `M_F[k]`, writes `None` into `M_CR[k]` when
that cell was already `None` or `max(S_CR) = 0` and the weighted Lehmer mean
of `S_CR` otherwise, and advances `k` by one modulo the memory size. -/
theorem c6_memory_update (mem : HistoricalMemory) (hk : mem.k < mem.size) :
    ((mem.s_cr = [] ∨ mem.s_f = [] ∨ mem.weights = []) → mem.update = mem) ∧
    (mem.s_cr ≠ [] → mem.s_f ≠ [] → mem.weights ≠ [] →
      mem.update.m_f = mem.m_f.set mem.k (mean_wl mem.s_f mem.weights) ∧
      mem.update.m_cr = mem.m_cr.set mem.k
        (if mem.m_cr.getD mem.k none = none ∨ listMax mem.s_cr = 0 then none
         else some (mean_wl mem.s_cr mem.weights)) ∧
      mem.update.k = (mem.k + 1) % mem.size) := by
  constructor
  · intro h
    unfold HistoricalMemory.update
    rw [if_pos h]
  · intro h1 h2 h3
    unfold HistoricalMemory.update
    rw [if_neg (by simp [h1, h2, h3])]
    refine ⟨rfl, ?_, ?_⟩
    · by_cases hc : mem.m_cr.getD mem.k none = none ∨ listMax mem.s_cr = 0
      · rw [if_pos hc, if_pos hc]
      · rw [if_neg hc, if_neg hc]
    · show (if mem.size - 1 ≤ mem.k then 0 else mem.k + 1) = (mem.k + 1) % mem.size
      by_cases hks : mem.size - 1 ≤ mem.k
      · rw [if_pos hks]
        have hsz : mem.k + 1 = mem.size := by omega
        rw [hsz, Nat.mod_self]
      · rw [if_neg hks, Nat.mod_eq_of_lt (by omega)]

theorem c6_witness :
    memEmpty.update = memEmpty ∧
    memOne.update.m_f = memOne.m_f.set 0 (mean_wl [1/2] [1]) ∧
    memOne.update.k = 1 := by
  have hA := (c6_memory_update memEmpty (by decide)).1 (Or.inl rfl)
  have hB := (c6_memory_update memOne (by decide)).2
    (by decide) (by decide) (by decide)
  exact ⟨hA, hB.1, hB.2.2⟩

/-- Claim C7: for a continuous real hyperparameter with bounds `(a, b)`,
`a < b`, `set_value(v)` followed by `get_value()` returns `v` when
`v ∈ [a, b]` and the violated bound otherwise (`a` when `v < a`, `b` when
`v > b`). -/
theorem c7_hyperparameter_roundtrip (a b v : ℚ) (hab : a < b) :
    ((HyperparameterR.mk [a, b] none).set_value v).get_value
      = if v < a then a else if b < v then b else v := by
  have hba : (0 : ℚ) < b - a := by linarith
  have hb0 : b - a ≠ 0 := ne_of_gt hba
  have e2 : (HyperparameterR.mk [a, b] none).set_value v
      = HyperparameterR.mk [a, b] (some (clip (translateValue v a b 0 1) 0 1)) := rfl
  have e3 : ∀ w : ℚ, (HyperparameterR.mk [a, b] (some w)).get_value
      = translateValue w 0 1 a b := fun _ => rfl
  rw [e2, e3]
  have e4 : translateValue v a b 0 1 = (v - a) / (b - a) := by
    unfold translateValue; ring
  have e5 : ∀ w : ℚ, translateValue w 0 1 a b = a + w * (b - a) := by
    intro w; unfold translateValue; ring
  rw [e4, e5]
  have hva : (v - a) / (b - a) < 0 ↔ v < a := by
    rw [div_lt_iff hba]
    constructor <;> intro h <;> linarith
  have hvb : (v - a) / (b - a) > 1 ↔ b < v := by
    rw [gt_iff_lt, lt_div_iff hba]
    constructor <;> intro h <;> linarith
  unfold clip
  by_cases h1 : (v - a) / (b - a) < 0
  · rw [if_pos h1, if_pos (hva.mp h1)]
    ring
  · rw [if_neg h1]
    by_cases h2 : (v - a) / (b - a) > 1
    · rw [if_pos h2, if_neg (by rw [← hva]; exact h1), if_pos (hvb.mp h2)]
      ring
    · rw [if_neg h2, if_neg (by rw [← hva]; exact h1), if_neg (by rw [← hvb]; exact h2),
        div_mul_cancel₀ _ hb0]
      ring

theorem c7_witness :
    ((HyperparameterR.mk [0, 2] none).set_value 3).get_value
      = if (3 : ℚ) < 0 then 0 else if (2 : ℚ) < 3 then 2 else 3 :=
  c7_hyperparameter_roundtrip 0 2 3 (by norm_num)

/-- `SHADE.get_control_parameters` can only fail with the model's
draw-exhaustion message (the Python code instead loops until an admissible
Cauchy draw arrives). -/
lemma get_control_parameters_error (st : SHADE) (o : SHADEChoice) (e : String)
    (h : st.get_control_parameters o = .error e) : e = "no admissible F draw" := by
  simp only [SHADE.get_control_parameters] at h
  split at h
  · exact (Except.error.injEq _ _).mp h.symm
  · cases h

/-- Claim C5 (amended): `DifferentialEvolution.mutate` on a generation of
fewer than 3 members fails with the fatal message
"generation size must be at least 3 or higher." (the source message carries
the trailing "or higher.", unlike the claim's quoted text) and mutates
nothing; `SHADE.mutate` on fewer than 4 members fails with
"generation size must be at least 4 or higher."; on generations of sufficient
size neither produces its size error. -/
theorem c5_degenerate_guards_amended (e : DifferentialEvolution)
    (gen : List MemberState) (choices : Nat → DEChoice) (st : SHADE)
    (member : MemberState) (o : SHADEChoice) :
    (gen.length < 3 →
      e.mutate gen choices = .error ("generation size must be at least 3 or higher.")) ∧
    (3 ≤ gen.length →
      e.mutate gen choices ≠ .error ("generation size must be at least 3 or higher.")) ∧
    (gen.length < 4 →
      SHADE.mutate st member gen o = .error ("generation size must be at least 4 or higher.")) ∧
    (4 ≤ gen.length →
      SHADE.mutate st member gen o ≠ .error ("generation size must be at least 4 or higher.")) := by
  refine ⟨?_, ?_, ?_, ?_⟩
  · intro h
    unfold DifferentialEvolution.mutate
    rw [if_pos h]
  · intro h
    unfold DifferentialEvolution.mutate
    rw [if_neg (by omega)]
    simp
  · intro h
    unfold SHADE.mutate
    rw [if_pos h]
  · intro h
    unfold SHADE.mutate
    rw [if_neg (by omega)]
    split
    · next e2 heq =>
        have he2 := get_control_parameters_error st o e2 heq
        subst he2
        intro hc
        injection hc with hs
        exact absurd hs (by decide)
    · next pr heq =>
        simp

/-- Claim C5 counterexample: on a two-member generation
`DifferentialEvolution.mutate` fails, but with the message
"generation size must be at least 3 or higher." — not the claim's quoted
"generation size must be at least 3". -/
theorem c5_counterexample :
    DifferentialEvolution.mutate ⟨1/5, 4/5⟩ genTwo (fun _ => ⟨0, 0, 0, 0, []⟩)
      = .error ("generation size must be at least 3 or higher.") ∧
    "generation size must be at least 3 or higher."
      ≠ "generation size must be at least 3" := by
  constructor
  · unfold DifferentialEvolution.mutate
    rw [if_pos (by decide)]
  · decide

theorem c5_witness :
    DifferentialEvolution.mutate ⟨1/5, 4/5⟩ genTwo (fun _ => ⟨1, 2, 3, 0, []⟩)
      = .error ("generation size must be at least 3 or higher.") ∧
    DifferentialEvolution.mutate ⟨1/5, 4/5⟩ genThree (fun _ => ⟨1, 2, 3, 0, []⟩)
      ≠ .error ("generation size must be at least 3 or higher.") ∧
    SHADE.mutate cSHADE (mkMember 1 1) genThree cChoice
      = .error ("generation size must be at least 4 or higher.") ∧
    SHADE.mutate cSHADE (mkMember 1 1) genFour cChoice
      ≠ .error ("generation size must be at least 4 or higher.") := by
  refine ⟨?_, ?_, ?_, ?_⟩
  · exact (c5_degenerate_guards_amended ⟨1/5, 4/5⟩ genTwo (fun _ => ⟨1, 2, 3, 0, []⟩)
      cSHADE (mkMember 1 1) cChoice).1 (by decide)
  · exact (c5_degenerate_guards_amended ⟨1/5, 4/5⟩ genThree (fun _ => ⟨1, 2, 3, 0, []⟩)
      cSHADE (mkMember 1 1) cChoice).2.1 (by decide)
  · exact (c5_degenerate_guards_amended ⟨1/5, 4/5⟩ genThree (fun _ => ⟨1, 2, 3, 0, []⟩)
      cSHADE (mkMember 1 1) cChoice).2.2.1 (by decide)
  · exact (c5_degenerate_guards_amended ⟨1/5, 4/5⟩ genFour (fun _ => ⟨1, 2, 3, 0, []⟩)
      cSHADE (mkMember 1 1) cChoice).2.2.2 (by decide)

/-- Claim C1 (amended): `ExternalArchive.append` preserves the length bound as
long as the capacity is a whole number `n` (a full archive first evicts one
element), which is the situation throughout plain SHADE, whose capacity
`round(N_INIT * r_arc)` is fixed at construction; and the capacity in effect
after an L-SHADE generation that shrank the population to `N_new` equals the
unrounded product `N_new * r_arc` (the source performs no rounding there). -/
theorem c1_archive_bound_amended :
    (∀ (a : ExternalArchive) (n evict : Nat) (m : MemberState),
      a.size = (n : ℚ) → a.data.length ≤ n → evict < n →
      (a.append evict m).data.length ≤ n) ∧
    (∀ (st : LSHADE) (gen : List MemberState),
      st.newSize < (gen.length : ℤ) →
      (st.adjust_generation_size gen).1.archive.size = (st.newSize : ℚ) * st.r_arc) := by
  constructor
  · intro a n evict m hsize hlen hev
    unfold ExternalArchive.append
    by_cases hfull : (a.data.length : ℚ) = a.size
    · rw [if_pos hfull]
      have hln : a.data.length = n := by
        have h2 := hfull.trans hsize
        exact_mod_cast h2
      simp only [List.length_append, List.length_cons, List.length_nil]
      rw [List.length_eraseIdx_of_lt (by omega)]
      omega
    · rw [if_neg hfull]
      have hne : a.data.length ≠ n := fun hc => hfull (by rw [hc, hsize])
      simp only [List.length_append, List.length_cons, List.length_nil]
      omega
  · intro st gen hlt
    unfold LSHADE.adjust_generation_size
    rw [if_neg (by omega)]

theorem c1_witness :
    ((ExternalArchive.mk 2 [mkMember 1 1, mkMember 2 2]).append 0 (mkMember 3 3)).data.length ≤ 2 ∧
    (cLSHADE.adjust_generation_size genFive).1.archive.size
      = (cLSHADE.newSize : ℚ) * cLSHADE.r_arc := by
  constructor
  · exact c1_archive_bound_amended.1 ⟨2, [mkMember 1 1, mkMember 2 2]⟩ 2 0 (mkMember 3 3)
      (by norm_num) (by decide) (by decide)
  · refine c1_archive_bound_amended.2 cLSHADE genFive ?_
    have h3 : cLSHADE.newSize = 3 := by
      have harg : ((cLSHADE.N_MIN : ℚ) - cLSHADE.N_INIT) / cLSHADE.MAX_NFE * cLSHADE.nfe
          + cLSHADE.N_INIT = ((3 : ℤ) : ℚ) := by
        norm_num [cLSHADE, cSHADE5]
      unfold LSHADE.newSize
      rw [harg, pythonRound_intCast]
    rw [h3]
    decide

/-- Claim C1 counterexample: with `r_arc = 3/2` and a generation shrink to
`N_new = 5`, `LSHADE.adjust_generation_size` sets the archive capacity to the
unrounded `5 * 3/2 = 15/2`, while the claim demands
`round(N_new * r_arc) = 8`; the two differ.  (A fractional capacity moreover
makes `ExternalArchive.append`'s fullness test `len == size` unsatisfiable.) -/
theorem c1_counterexample :
    cLSHADE15.newSize = 5 ∧
    (cLSHADE15.adjust_generation_size genSix).1.archive.size = 15/2 ∧
    ((pythonRound ((5 : ℚ) * (3/2)) : ℤ) : ℚ) = 8 ∧
    (15 : ℚ)/2 ≠ 8 := by
  have h5 : cLSHADE15.newSize = 5 := by
    have harg : ((cLSHADE15.N_MIN : ℚ) - cLSHADE15.N_INIT) / cLSHADE15.MAX_NFE * cLSHADE15.nfe
        + cLSHADE15.N_INIT = ((5 : ℤ) : ℚ) := by
      norm_num [cLSHADE15, cSHADE15]
    unfold LSHADE.newSize
    rw [harg, pythonRound_intCast]
  refine ⟨h5, ?_, ?_, by norm_num⟩
  · unfold LSHADE.adjust_generation_size
    rw [if_neg (by rw [h5]; decide)]
    show (cLSHADE15.newSize : ℚ) * cLSHADE15.r_arc = 15/2
    rw [h5]
    norm_num [cLSHADE15, cSHADE15]
  · have harg : (5 : ℚ) * (3/2) = 15/2 := by norm_num
    have hf : ⌊(15 : ℚ)/2⌋ = 7 := by norm_num [Int.floor_eq_iff]
    have h8 : pythonRound ((15 : ℚ)/2) = 8 := by
      rw [pythonRound, hf]
      norm_num
    rw [harg, h8]
    norm_num

lemma eEE_n_elitists : eEE.n_elitists [mElite, mWeak] = 1 := by
  unfold ExploitAndExplore.n_elitists
  have harg : ((List.length [mElite, mWeak] : ℚ)) * eEE.exploit_factor = ((1 : ℤ) : ℚ) := by
    norm_num [eEE]
  rw [harg, pythonRound_intCast]
  decide

lemma eEE_elitists : eEE.elitists [mElite, mWeak] = [mElite] := by
  unfold ExploitAndExplore.elitists
  rw [eEE_n_elitists]
  rfl

/-- Claim C9 (amended): under `ExploitAndExplore`, a member among the top
`n_elitists = max(1, round(|G| * exploit_factor))` of the descending-sorted
generation is emitted unchanged; any other member is emitted with the
parameters and opaque state of the uniformly chosen elitist, where each
normalized coordinate `u` is multiplied by the drawn explore factor **and the
product is clipped to [0, 1]** (the multiplication goes through
`Hyperparameter.__mul__`, which clips). -/
theorem c9_exploit_explore_amended (e : ExploitAndExplore) (member : MemberState)
    (gen : List MemberState) (elitIdx : Nat) (factors : List ℚ) :
    ((e.elitists gen).any (fun m => m.id == member.id) = true →
      e.exploit_and_explore member gen elitIdx factors = member) ∧
    ((e.elitists gen).any (fun m => m.id == member.id) = false →
      e.exploit_and_explore member gen elitIdx factors
        = { member with
            params := exploreParams factors 0
              ((e.elitists gen).getD (elitIdx % (e.elitists gen).length) member).params
            state := ((e.elitists gen).getD (elitIdx % (e.elitists gen).length) member).state } ∧
      (gen ≠ [] →
        (e.elitists gen).getD (elitIdx % (e.elitists gen).length) member ∈ e.elitists gen)) := by
  constructor
  · intro h
    simp only [ExploitAndExplore.exploit_and_explore, h, if_true]
  · intro h
    constructor
    · simp only [ExploitAndExplore.exploit_and_explore, h, Bool.false_eq_true, if_false]
    · intro hgen
      have hlen : 0 < (e.elitists gen).length := by
        unfold ExploitAndExplore.elitists
        rw [List.length_take]
        have h1 : 0 < gen.length := List.length_pos.mpr hgen
        have h2 : (sortDesc gen).length = gen.length := (sortDesc_perm gen).length_eq
        have h3 : 0 < e.n_elitists gen := by
          unfold ExploitAndExplore.n_elitists
          omega
        omega
      have hidx : elitIdx % (e.elitists gen).length < (e.elitists gen).length :=
        Nat.mod_lt _ hlen
      rw [List.getD_eq_getElem _ _ hidx]
      exact List.getElem_mem hidx

/-- Claim C9 counterexample: elitist coordinate `u = 1`, explore factor `6/5`:
the emitted coordinate is `clip(6/5 * 1, 0, 1) = 1`, not the claimed plain
product `6/5 * 1 = 6/5`. -/
theorem c9_counterexample :
    (eEE.exploit_and_explore mWeak [mElite, mWeak] 0 [6/5]).params = [1] ∧
    ((6 : ℚ)/5 ∈ eEE.explore_factors) ∧
    mElite.params = [1] ∧
    (eEE.exploit_and_explore mWeak [mElite, mWeak] 0 [6/5]).params ≠ [(6 : ℚ)/5 * 1] := by
  have hany : (eEE.elitists [mElite, mWeak]).any (fun m => m.id == mWeak.id) = false := by
    rw [eEE_elitists]
    rfl
  have hclip : clip ((6 : ℚ)/5 * 1) 0 1 = 1 := by
    unfold clip
    rw [if_neg (by norm_num), if_pos (by norm_num)]
  have heval : (eEE.exploit_and_explore mWeak [mElite, mWeak] 0 [6/5]).params = [1] := by
    simp only [ExploitAndExplore.exploit_and_explore, eEE_elitists, hany,
      Bool.false_eq_true, if_false]
    show exploreParams [6/5] 0 mElite.params = [1]
    show [clip (((6 : ℚ)/5) * 1) 0 1] = [1]
    rw [hclip]
  refine ⟨heval, by norm_num [eEE], rfl, ?_⟩
  rw [heval]
  intro hc
  rw [List.cons.injEq] at hc
  have := hc.1
  norm_num at this

theorem c9_witness :
    eEE.exploit_and_explore mElite [mElite, mWeak] 1 [(6 : ℚ)/5] = mElite ∧
    ((eEE.elitists [mElite, mWeak]).getD (0 % (eEE.elitists [mElite, mWeak]).length) mWeak
      ∈ eEE.elitists [mElite, mWeak]) ∧
    eEE.exploit_and_explore mWeak [mElite, mWeak] 0 [(6 : ℚ)/5]
      = { mWeak with
          params := exploreParams [(6 : ℚ)/5] 0
            ((eEE.elitists [mElite, mWeak]).getD
              (0 % (eEE.elitists [mElite, mWeak]).length) mWeak).params
          state := ((eEE.elitists [mElite, mWeak]).getD
            (0 % (eEE.elitists [mElite, mWeak]).length) mWeak).state } := by
  have h1 := (c9_exploit_explore_amended eEE mElite [mElite, mWeak] 1 [(6 : ℚ)/5]).1
  have h2 := (c9_exploit_explore_amended eEE mWeak [mElite, mWeak] 0 [(6 : ℚ)/5]).2
  have hany1 : (eEE.elitists [mElite, mWeak]).any (fun m => m.id == mElite.id) = true := by
    rw [eEE_elitists]
    rfl
  have hany2 : (eEE.elitists [mElite, mWeak]).any (fun m => m.id == mWeak.id) = false := by
    rw [eEE_elitists]
    rfl
  exact ⟨h1 hany1, (h2 hany2).2 (by simp), (h2 hany2).1⟩

lemma filter_not_take_length (gen : List MemberState) (delta : Nat)
    (hnd : (gen.map MemberState.id).Nodup) :
    (gen.filter (fun m =>
      !((((sortAsc gen).take delta).map MemberState.id).contains m.id))).length
    = gen.length - delta ∨ delta > gen.length := by
  by_cases hdle : delta ≤ gen.length
  swap
  · right; omega
  left
  have hperm : (sortAsc gen).Perm gen := sortAsc_perm gen
  have hlens : (sortAsc gen).length = gen.length := hperm.length_eq
  have hnds : ((sortAsc gen).map MemberState.id).Nodup :=
    ((hperm.map MemberState.id).nodup_iff).mpr hnd
  have hsplit := List.take_append_drop delta (sortAsc gen)
  have hnd2 : (((sortAsc gen).take delta).map MemberState.id
      ++ ((sortAsc gen).drop delta).map MemberState.id).Nodup := by
    rw [← List.map_append, hsplit]
    exact hnds
  have hdisj := (List.nodup_append.mp hnd2).2.2
  have hft : ((sortAsc gen).take delta).filter (fun m =>
      !((((sortAsc gen).take delta).map MemberState.id).contains m.id)) = [] := by
    rw [List.filter_eq_nil_iff]
    intro a ha
    have hmem : a.id ∈ ((sortAsc gen).take delta).map MemberState.id :=
      List.mem_map_of_mem MemberState.id ha
    rw [List.map_take] at hmem
    simp [hmem]
  have hfd : ((sortAsc gen).drop delta).filter (fun m =>
      !((((sortAsc gen).take delta).map MemberState.id).contains m.id))
      = (sortAsc gen).drop delta := by
    rw [List.filter_eq_self]
    intro a ha
    have hmem : a.id ∈ ((sortAsc gen).drop delta).map MemberState.id :=
      List.mem_map_of_mem MemberState.id ha
    have hnotin : a.id ∉ ((sortAsc gen).take delta).map MemberState.id :=
      fun hcon => hdisj hcon hmem
    rw [List.map_take] at hnotin
    simpa using hnotin
  calc (gen.filter (fun m =>
        !((((sortAsc gen).take delta).map MemberState.id).contains m.id))).length
      = ((sortAsc gen).filter (fun m =>
        !((((sortAsc gen).take delta).map MemberState.id).contains m.id))).length :=
        ((hperm.symm).filter _).length_eq
    _ = (((sortAsc gen).take delta).filter (fun m =>
          !((((sortAsc gen).take delta).map MemberState.id).contains m.id))
        ++ ((sortAsc gen).drop delta).filter (fun m =>
          !((((sortAsc gen).take delta).map MemberState.id).contains m.id))).length := by
        rw [← List.filter_append, hsplit]
    _ = ((sortAsc gen).drop delta).length := by
        rw [hft, hfd]
        simp
    _ = gen.length - delta := by
        rw [List.length_drop, hlens]

lemma filter_not_take_le (gen : List MemberState) (delta : Nat) (bb : Bool)
    (hb : ∀ m ∈ gen, m.minimize = bb) :
    ∀ w ∈ (sortAsc gen).take delta,
      ∀ m ∈ gen.filter (fun m =>
        !((((sortAsc gen).take delta).map MemberState.id).contains m.id)),
      w.le m = true := by
  intro w hw m hm
  rw [List.mem_filter] at hm
  have hperm : (sortAsc gen).Perm gen := sortAsc_perm gen
  have hmem_s : m ∈ sortAsc gen := hperm.mem_iff.mpr hm.1
  have hsplit := List.take_append_drop delta (sortAsc gen)
  have hmem_app : m ∈ (sortAsc gen).take delta ++ (sortAsc gen).drop delta := by
    rw [hsplit]
    exact hmem_s
  rcases List.mem_append.mp hmem_app with hmt | hmd
  · exfalso
    have hmem : m.id ∈ ((sortAsc gen).take delta).map MemberState.id :=
      List.mem_map_of_mem MemberState.id hmt
    rw [List.map_take] at hmem
    have := hm.2
    simp at this
    exact this hmem
  · have hpw : (sortAsc gen).Pairwise (fun a b => a.le b = true) :=
      sortAsc_pairwise bb gen hb
    have hpw2 : ((sortAsc gen).take delta ++ (sortAsc gen).drop delta).Pairwise
        (fun a b => a.le b = true) := by
      rw [hsplit]
      exact hpw
    exact (List.pairwise_append.mp hpw2).2.2 w hw m hmd

/-- Claim C3: L-SHADE linear population-size reduction.  With
`N_new = round(((N_MIN - N_INIT) / MAX_NFE) * NFE + N_INIT)`: if
`N_new >= |G|` the generation is unchanged; if `N_new < |G|` then exactly
`|G| - N_new` members are removed — the prefix of the ascending member-order
sort, i.e. the lowest-scoring members, each removed member being at most every
survivor — leaving exactly `N_new` members; and for
`N_INIT=20, N_MIN=4, MAX_NFE=1000, NFE=500` the target is `N_new = 12`. -/
theorem c3_lshade_population_reduction (st : LSHADE) (gen : List MemberState)
    (bb : Bool) (hnd : (gen.map MemberState.id).Nodup)
    (hb : ∀ m ∈ gen, m.minimize = bb) :
    ((gen.length : ℤ) ≤ st.newSize → (st.adjust_generation_size gen).2 = gen) ∧
    (st.newSize < (gen.length : ℤ) → 0 ≤ st.newSize →
      (st.adjust_generation_size gen).2
        = gen.filter (fun m =>
            !((((sortAsc gen).take (((gen.length : ℤ) - st.newSize).toNat)).map
                MemberState.id).contains m.id)) ∧
      ((st.adjust_generation_size gen).2.length : ℤ) = st.newSize ∧
      (∀ w ∈ (sortAsc gen).take (((gen.length : ℤ) - st.newSize).toNat),
        ∀ m ∈ (st.adjust_generation_size gen).2, w.le m = true)) ∧
    pythonRound (((4 : ℚ) - 20) / 1000 * 500 + 20) = 12 := by
  have hround : pythonRound (((4 : ℚ) - 20) / 1000 * 500 + 20) = 12 := by
    have harg : ((4 : ℚ) - 20) / 1000 * 500 + 20 = ((12 : ℤ) : ℚ) := by norm_num
    rw [harg, pythonRound_intCast]
  refine ⟨?_, ?_, hround⟩
  · intro h
    unfold LSHADE.adjust_generation_size
    rw [if_pos h]
  · intro hlt hge
    have hadj : (st.adjust_generation_size gen).2
        = gen.filter (fun m =>
            !((((sortAsc gen).take (((gen.length : ℤ) - st.newSize).toNat)).map
                MemberState.id).contains m.id)) := by
      unfold LSHADE.adjust_generation_size
      rw [if_neg (by omega)]
      exact foldl_eraseById _ gen hnd
    refine ⟨hadj, ?_, ?_⟩
    · rw [hadj]
      rcases filter_not_take_length gen (((gen.length : ℤ) - st.newSize).toNat) hnd
        with hlen | hgt
      · omega
      · omega
    · intro w hw m hm
      rw [hadj] at hm
      exact filter_not_take_le gen (((gen.length : ℤ) - st.newSize).toNat) bb hb w hw m hm

theorem c3_witness :
    ((cLSHADE.adjust_generation_size genFive).2.length : ℤ) = cLSHADE.newSize ∧
    cLSHADE.newSize = 3 ∧
    pythonRound (((4 : ℚ) - 20) / 1000 * 500 + 20) = 12 := by
  have h3 : cLSHADE.newSize = 3 := by
    have harg : ((cLSHADE.N_MIN : ℚ) - cLSHADE.N_INIT) / cLSHADE.MAX_NFE * cLSHADE.nfe
        + cLSHADE.N_INIT = ((3 : ℤ) : ℚ) := by
      norm_num [cLSHADE, cSHADE5]
    unfold LSHADE.newSize
    rw [harg, pythonRound_intCast]
  have h := c3_lshade_population_reduction cLSHADE genFive false (by decide) (by decide)
  refine ⟨(h.2.1 ?_ ?_).2.1, h3, h.2.2⟩
  · rw [h3]
    decide
  · rw [h3]
    decide
